import Mathlib

/-
  Verification of the CogniTrack training script
  (src/training/train_trend_model.py) against its specification.

  The script is a linear sequence of library calls with no control flow of
  its own.  We embed it as a list of effects executed in order; each library
  call may raise an exception, modelled by an oracle telling which effects
  succeed.  Since the script installs no exception handler, a run is the
  longest prefix of successful effects, and the outcome is either success or
  the first raised exception.
-/

namespace CogniTrack

/-- Activation functions named by the script. -/
inductive Activation
  | relu
  | softmax
deriving DecidableEq, Repr

/-- Keras layers, as configured by the script (arguments kept verbatim). -/
inductive Layer
  | inputLayer (inputShape : Nat × Nat)
  | conv1D (filters kernelSize : Nat) (activation : Activation) (paddingSame : Bool)
  | batchNormalization
  | dropout (rate : ℚ)
  | globalAveragePooling1D
  | dense (units : Nat) (activation : Activation)
deriving DecidableEq, Repr

/-- `input_shape = (6, 8)` from line 19 of the script. -/
def input_shape : Nat × Nat := (6, 8)

/-- The layer list of `keras.Sequential` (lines 21-36 of the script). -/
def model : List Layer :=
  [ .inputLayer input_shape,
    .conv1D 32 3 .relu true,
    .batchNormalization,
    .dropout 0.2,
    .conv1D 16 3 .relu true,
    .globalAveragePooling1D,
    .dense 16 .relu,
    .dense 3 .softmax ]

/-- The three trend classes, from the comment on the output layer and the
spec glossary. -/
def trendClasses : List String := ["Stable", "Declining", "Improving"]

/-- Arguments of `model.compile` (lines 38-42). -/
structure CompileConfig where
  optimizer : String
  loss : String
  metrics : List String
deriving DecidableEq, Repr

def compileConfig : CompileConfig :=
  { optimizer := "adam"
    loss := "sparse_categorical_crossentropy"
    metrics := ["accuracy"] }

/-- Keyword arguments of `model.fit` (lines 47-53). -/
structure FitConfig where
  epochs : Nat
  batchSize : Nat
  validationSplit : ℚ
  verbose : Nat
deriving DecidableEq, Repr

def fitConfig : FitConfig :=
  { epochs := 20, batchSize := 32, validationSplit := 0.2, verbose := 1 }

/-- Python builtins assigned onto the numpy namespace by the monkey patch. -/
inductive PyBuiltin
  | object
  | bool
deriving DecidableEq, Repr

/-- One observable effect of the script on its environment. -/
inductive Effect
  | setNpAttr (attr : String) (value : PyBuiltin)
  | loadDataset (path : String) (keys : List String)
  | buildModel (modelLayers : List Layer)
  | compileModel (cfg : CompileConfig)
  | summary
  | fit (cfg : FitConfig)
  | makedirs (path : String) (existOk : Bool)
  | saveModel (path : String)
  | printLine (msg : String)
deriving DecidableEq, Repr

/-- `model_dir` from line 56. -/
def model_dir : String := "../public/models/trend-cnn"

/-- The effects of the script, in the textual order of its statements. -/
def scriptSteps : List Effect :=
  [ .setNpAttr "object" .object,
    .setNpAttr "bool" .bool,
    .loadDataset "training_data.npz" ["X", "y"],
    .buildModel model,
    .compileModel compileConfig,
    .summary,
    .fit fitConfig,
    .makedirs model_dir true,
    .saveModel "trend_model.keras",
    .printLine "Saved trend_model.keras" ]

/-- Outcome of a run: either every effect succeeded, or some library call
raised and the exception escaped the script. -/
inductive Outcome
  | success
  | raised (e : Effect)
deriving DecidableEq, Repr

/-- Execute a list of effects in order under an oracle `ok` telling which
library calls succeed.  There is no handler in the script, so the first
failing call aborts the run and its exception is the outcome. -/
def runFrom : List Effect → (Effect → Bool) → List Effect × Outcome
  | [], _ => ([], .success)
  | e :: rest, ok =>
    if ok e then (e :: (runFrom rest ok).1, (runFrom rest ok).2)
    else ([], .raised e)

/-- A run of the whole script: the executed effects and the outcome. -/
def runScript (ok : Effect → Bool) : List Effect × Outcome :=
  runFrom scriptSteps ok

/-- Paths of files written during a trace. -/
def filesWritten (trace : List Effect) : List String :=
  trace.filterMap fun e =>
    match e with
    | .saveModel p => some p
    | _ => none

/-- Directories created during a trace, with their `exist_ok` flag. -/
def dirsCreated (trace : List Effect) : List (String × Bool) :=
  trace.filterMap fun e =>
    match e with
    | .makedirs p b => some (p, b)
    | _ => none

/-- The abstract step kinds named by the spec's pipeline sentence. -/
inductive StepKind
  | load
  | build
  | compile
  | fit
  | save
  | other
deriving DecidableEq, Repr

/-- Classify an effect as one of the spec's pipeline steps. -/
def kindOf : Effect → StepKind
  | .loadDataset _ _ => .load
  | .buildModel _ => .build
  | .compileModel _ => .compile
  | .fit _ => .fit
  | .saveModel _ => .save
  | _ => .other

/-- The pipeline steps of a trace, in order, auxiliary effects dropped. -/
def mainSteps (trace : List Effect) : List StepKind :=
  (trace.map kindOf).filter (fun k => k != .other)

/-- Whether an effect is one of the numpy monkey-patch assignments. -/
def isNpPatch : Effect → Bool
  | .setNpAttr _ _ => true
  | _ => false

/-- List-of-characters prefix test, used to ask whether a written file path
lies under a directory. -/
def startsWith : List Char → List Char → Bool
  | [], _ => true
  | _ :: _, [] => false
  | a :: as, b :: bs => a == b && startsWith as bs

/-- A path `f` names a file inside directory `d` iff it starts with `d/`. -/
def inDir (d f : String) : Bool :=
  startsWith (d.toList ++ ['/']) f.toList

/-- Softmax over an `n`-vector of reals, the semantics of the `softmax`
activation of the output layer. -/
noncomputable def softmax {n : ℕ} (z : Fin n → ℝ) : Fin n → ℝ :=
  fun i => Real.exp (z i) / ∑ j, Real.exp (z j)

/-- The statements of the script that precede the model save, in order. -/
def stepsBeforeSave : List Effect :=
  [ .setNpAttr "object" .object,
    .setNpAttr "bool" .bool,
    .loadDataset "training_data.npz" ["X", "y"],
    .buildModel model,
    .compileModel compileConfig,
    .summary,
    .fit fitConfig,
    .makedirs model_dir true ]

/- ---------------------------------------------------------------------- -/
/- Helper lemmas about the run semantics.                                  -/
/- ---------------------------------------------------------------------- -/

/-- The executed trace is the longest prefix of effects the oracle accepts. -/
theorem runFrom_trace (ok : Effect → Bool) :
    ∀ l : List Effect, (runFrom l ok).1 = l.takeWhile ok := by
  intro l
  induction l with
  | nil => rfl
  | cons e rest ih =>
    by_cases h : ok e
    · simp [runFrom, List.takeWhile_cons, h, ih]
    · simp [runFrom, List.takeWhile_cons, h]

/-- A run succeeds iff every effect in the list succeeds. -/
theorem runFrom_success (ok : Effect → Bool) :
    ∀ l : List Effect, ((runFrom l ok).2 = .success ↔ ∀ e ∈ l, ok e = true) := by
  intro l
  induction l with
  | nil => simp [runFrom]
  | cons e rest ih =>
    by_cases h : ok e
    · simp [runFrom, h, ih]
    · simp only [runFrom, h, if_false]
      constructor
      · intro hc; exact absurd hc (by simp)
      · intro hall
        exact absurd (hall e (List.mem_cons_self e rest)) (by simp [h])

/-- A raised outcome names a listed effect that the oracle rejected. -/
theorem runFrom_raised (ok : Effect → Bool) :
    ∀ l : List Effect, ∀ e : Effect,
      (runFrom l ok).2 = .raised e → e ∈ l ∧ ok e = false := by
  intro l
  induction l with
  | nil => intro e h; exact absurd h (by simp [runFrom])
  | cons a rest ih =>
    intro e h
    by_cases ha : ok a
    · simp only [runFrom, ha, if_true] at h
      obtain ⟨hmem, hok⟩ := ih e h
      exact ⟨List.mem_cons_of_mem a hmem, hok⟩
    · have h2 : (runFrom (a :: rest) ok).2 = Outcome.raised a := by simp [runFrom, ha]
      rw [h2] at h
      injection h with he
      subst he
      exact ⟨List.mem_cons_self a rest, by simpa using ha⟩

/-- If the oracle accepts every element, `takeWhile` keeps the whole list. -/
theorem takeWhile_of_all (ok : Effect → Bool) :
    ∀ l : List Effect, (∀ e ∈ l, ok e = true) → l.takeWhile ok = l := by
  intro l
  induction l with
  | nil => intro _; rfl
  | cons e rest ih =>
    intro hall
    have he : ok e = true := hall e (List.mem_cons_self e rest)
    have hrest : ∀ x ∈ rest, ok x = true := fun x hx => hall x (List.mem_cons_of_mem e hx)
    simp [List.takeWhile_cons, he, ih hrest]

/-- A path is among the files written by a trace iff the trace holds a save
effect for it. -/
theorem mem_filesWritten (p : String) :
    ∀ t : List Effect, (p ∈ filesWritten t ↔ Effect.saveModel p ∈ t) := by
  intro t
  induction t with
  | nil => simp [filesWritten]
  | cons e rest ih =>
    cases e <;> simp_all [filesWritten, List.filterMap_cons]

/-- In a `takeWhile` prefix, every element standing left of a retained
element is retained as well. -/
theorem takeWhile_mem_earlier (p : Effect → Bool) :
    ∀ (l₁ l₂ : List Effect) (x : Effect),
      x ∈ (l₁ ++ l₂).takeWhile p → x ∉ l₁ →
      ∀ y ∈ l₁, y ∈ (l₁ ++ l₂).takeWhile p := by
  intro l₁
  induction l₁ with
  | nil => intro l₂ x _ _ y hy; exact absurd hy (List.not_mem_nil y)
  | cons a l₁ ih =>
    intro l₂ x hx hnx y hy
    by_cases hpa : p a = true
    · rw [List.cons_append, List.takeWhile_cons, if_pos hpa] at hx ⊢
      rcases List.mem_cons.mp hy with hya | hyl
      · exact List.mem_cons.mpr (Or.inl hya)
      · rcases List.mem_cons.mp hx with hxa | hxt
        · exact absurd (List.mem_cons.mpr (Or.inl hxa)) hnx
        · exact List.mem_cons_of_mem a
            (ih l₂ x hxt (fun hc => hnx (List.mem_cons_of_mem a hc)) y hyl)
    · rw [List.cons_append, List.takeWhile_cons, if_neg hpa] at hx
      exact absurd hx (List.not_mem_nil x)

/- ---------------------------------------------------------------------- -/
/- Claim theorems.                                                         -/
/- ---------------------------------------------------------------------- -/

/-- Claim C1: the model's final layer is a dense layer with 3 output units
and softmax activation, the trend labels are Stable, Declining, Improving
(three of them), and on any 3-vector of logits the softmax output is a
probability distribution: every component positive and the components sum
to 1. -/
theorem trend_output_distribution :
    model.getLast? = some (Layer.dense 3 Activation.softmax) ∧
    trendClasses = ["Stable", "Declining", "Improving"] ∧
    trendClasses.length = 3 ∧
    ∀ z : Fin 3 → ℝ, (∀ i, 0 < softmax z i) ∧ (∑ i, softmax z i) = 1 := by
  refine ⟨by decide, rfl, rfl, ?_⟩
  intro z
  have hpos : ∀ j : Fin 3, 0 < Real.exp (z j) := fun j => Real.exp_pos _
  have hS : 0 < ∑ j, Real.exp (z j) :=
    Finset.sum_pos (fun j _ => hpos j) ⟨0, Finset.mem_univ 0⟩
  refine ⟨fun i => div_pos (hpos i) hS, ?_⟩
  simp only [softmax]
  rw [← Finset.sum_div, div_self (ne_of_gt hS)]

/-- Claim C2: one training example is a 6-time-step by 8-feature window:
`input_shape` is `(6, 8)` and the model's first layer is an input layer of
exactly that shape. -/
theorem input_window_shape :
    input_shape = (6, 8) ∧
    model.head? = some (Layer.inputLayer (6, 8)) := by
  exact ⟨rfl, rfl⟩

/-- Claim C3: on the successful run the script executes all its statements
in textual order, and the pipeline steps among them are exactly load,
build, compile, fit, save — once each, in that order, nothing skipped,
repeated or reordered. -/
theorem run_step_order :
    (runScript (fun _ => true)).1 = scriptSteps ∧
    (runScript (fun _ => true)).2 = Outcome.success ∧
    mainSteps scriptSteps =
      [StepKind.load, StepKind.build, StepKind.compile, StepKind.fit, StepKind.save] :=
  ⟨rfl, rfl, rfl⟩

/-- Claim C4: the compile configuration is the fixed triple
adam / sparse_categorical_crossentropy / [accuracy], and the only compile
effect the script can ever perform uses exactly that configuration. -/
theorem compile_config_fixed :
    compileConfig.optimizer = "adam" ∧
    compileConfig.loss = "sparse_categorical_crossentropy" ∧
    compileConfig.metrics = ["accuracy"] ∧
    ∀ cfg : CompileConfig, Effect.compileModel cfg ∈ scriptSteps → cfg = compileConfig := by
  refine ⟨rfl, rfl, rfl, ?_⟩
  intro cfg hc
  simp only [scriptSteps, List.mem_cons, List.not_mem_nil, or_false] at hc
  rcases hc with h | h | h | h | h | h | h | h | h | h <;> simp_all

/-- Witness for C4 at the concrete compile effect of the script. -/
theorem compile_config_fixed_witness :
    Effect.compileModel compileConfig ∈ scriptSteps ∧ compileConfig = compileConfig :=
  ⟨by simp [scriptSteps], compile_config_fixed.2.2.2 compileConfig (by simp [scriptSteps])⟩

/-- Claim C5: training always runs with epochs = 20, batch_size = 32 and
validation_split = 0.2, and the only fit effect the script can ever
perform uses exactly that configuration. -/
theorem fit_config_fixed :
    fitConfig.epochs = 20 ∧
    fitConfig.batchSize = 32 ∧
    fitConfig.validationSplit = 0.2 ∧
    ∀ cfg : FitConfig, Effect.fit cfg ∈ scriptSteps → cfg = fitConfig := by
  refine ⟨rfl, rfl, rfl, ?_⟩
  intro cfg hc
  simp only [scriptSteps, List.mem_cons, List.not_mem_nil, or_false] at hc
  rcases hc with h | h | h | h | h | h | h | h | h | h <;> simp_all

/-- Witness for C5 at the concrete fit effect of the script. -/
theorem fit_config_fixed_witness :
    Effect.fit fitConfig ∈ scriptSteps ∧ fitConfig = fitConfig :=
  ⟨by simp [scriptSteps], fit_config_fixed.2.2.2 fitConfig (by simp [scriptSteps])⟩

/-- Claim C6: on any successful run the whole script executed and the one
file written is trend_model.keras; moreover the fit step sits strictly
before the save step in the script's order. -/
theorem save_after_fit :
    (∀ ok : Effect → Bool, (runScript ok).2 = Outcome.success →
        (runScript ok).1 = scriptSteps ∧
        filesWritten (runScript ok).1 = ["trend_model.keras"]) ∧
    scriptSteps.findIdx (fun e => kindOf e == StepKind.fit) <
      scriptSteps.findIdx (fun e => kindOf e == StepKind.save) := by
  constructor
  · intro ok h
    have hall := (runFrom_success ok scriptSteps).mp h
    have ht : (runScript ok).1 = scriptSteps := by
      rw [runScript, runFrom_trace]
      exact takeWhile_of_all ok scriptSteps hall
    exact ⟨ht, by rw [ht]; rfl⟩
  · decide

/-- Witness for C6 at the all-successful oracle. -/
theorem save_after_fit_witness :
    (runScript (fun _ => true)).2 = Outcome.success ∧
    ((runScript (fun _ => true)).1 = scriptSteps ∧
      filesWritten (runScript (fun _ => true)).1 = ["trend_model.keras"]) :=
  ⟨rfl, save_after_fit.1 (fun _ => true) rfl⟩

/-- Claim C7: the script has no exception handler: a run succeeds iff every
library call succeeds, and otherwise the raised exception of the first
failing call propagates out of the script unchanged. -/
theorem exceptions_propagate (ok : Effect → Bool) :
    ((runScript ok).2 = Outcome.success ↔ ∀ e ∈ scriptSteps, ok e = true) ∧
    ∀ e : Effect, (runScript ok).2 = Outcome.raised e → e ∈ scriptSteps ∧ ok e = false :=
  ⟨runFrom_success ok scriptSteps, fun e h => runFrom_raised ok scriptSteps e h⟩

/-- Witness for C7: with an oracle failing exactly the summary call, the
run raises that call's exception, which is a script step the oracle
rejects. -/
theorem exceptions_propagate_witness :
    Effect.summary ∈ scriptSteps ∧
    (fun e => !(e == Effect.summary)) Effect.summary = false :=
  (exceptions_propagate (fun e => !(e == Effect.summary))).2
    Effect.summary (by rfl)

/-- Claim C8: persistence is all-or-nothing: in any run in which the model
file trend_model.keras was written, the fit call completed successfully
(it appears in the executed trace). -/
theorem save_requires_fit (ok : Effect → Bool)
    (h : "trend_model.keras" ∈ filesWritten (runScript ok).1) :
    Effect.fit fitConfig ∈ (runScript ok).1 := by
  rw [runScript, runFrom_trace, mem_filesWritten] at h
  rw [runScript, runFrom_trace]
  have hdec : scriptSteps = stepsBeforeSave ++
      [Effect.saveModel "trend_model.keras",
        Effect.printLine "Saved trend_model.keras"] := rfl
  rw [hdec] at h ⊢
  exact takeWhile_mem_earlier ok stepsBeforeSave _
    (Effect.saveModel "trend_model.keras") h (by decide)
    (Effect.fit fitConfig) (by simp [stepsBeforeSave])

/-- Witness for C8 at the all-successful oracle. -/
theorem save_requires_fit_witness :
    "trend_model.keras" ∈ filesWritten (runScript (fun _ => true)).1 ∧
    Effect.fit fitConfig ∈ (runScript (fun _ => true)).1 :=
  ⟨by decide, save_requires_fit (fun _ => true) (by decide)⟩

/-- Claim C9: the successful run creates exactly the directory
../public/models/trend-cnn with exist_ok set, writes exactly the one file
trend_model.keras, writes no file inside that directory, and the written
path has no directory component (it lands in the working directory). -/
theorem makedirs_no_files :
    dirsCreated (runScript (fun _ => true)).1 = [(model_dir, true)] ∧
    filesWritten (runScript (fun _ => true)).1 = ["trend_model.keras"] ∧
    (∀ f ∈ filesWritten (runScript (fun _ => true)).1, inDir model_dir f = false) ∧
    (∀ f ∈ filesWritten (runScript (fun _ => true)).1,
        f.toList.all (fun c => c != '/') = true) := by
  refine ⟨?_, ?_, ?_, ?_⟩ <;> decide

/-- Claim C10: the numpy monkey patches np.object := object and
np.bool := bool are the first two statements of the script, no other
statement touches the numpy namespace, and every run (whatever succeeds)
begins with the np.object patch if it executes anything at all. -/
theorem np_patch_first (ok : Effect → Bool) :
    scriptSteps.take 2 =
      [Effect.setNpAttr "object" PyBuiltin.object,
        Effect.setNpAttr "bool" PyBuiltin.bool] ∧
    (∀ e ∈ scriptSteps.drop 2, isNpPatch e = false) ∧
    ((runScript ok).1 = [] ∨
      (runScript ok).1.head? = some (Effect.setNpAttr "object" PyBuiltin.object)) := by
  refine ⟨by decide, by decide, ?_⟩
  rw [runScript, runFrom_trace]
  by_cases h : ok (Effect.setNpAttr "object" PyBuiltin.object)
  · right
    simp [scriptSteps, List.takeWhile_cons, h]
  · left
    simp [scriptSteps, List.takeWhile_cons, h]

/-- Witness for C10 at the all-successful oracle. -/
theorem np_patch_first_witness :
    (runScript (fun _ => true)).1 = [] ∨
    (runScript (fun _ => true)).1.head? =
      some (Effect.setNpAttr "object" PyBuiltin.object) :=
  (np_patch_first (fun _ => true)).2.2

end CogniTrack
